import Mathlib

/-!
Verification of the payme personal-finance application.

This file gives a shallow embedding of the parts of the repository that the
verified properties talk about:

* the debt remaining-balance-with-interest calculator
  (`calculateRemainingWithInterest`, used by `apps/web/app/(dashboard)/debts/page.tsx`);
* `getUserIdFromSession` from `apps/web/app/actions/accounts.tsx`;
* the database-transaction bodies of `createInvestment` and `deleteInvestment`
  from `apps/web/app/actions/investments.ts` and of `bulkDeleteAccounts` from
  `apps/web/app/actions/accounts.tsx`.

Monetary amounts (JavaScript numbers / Prisma Decimals) are modelled as
rationals, dates as integer day numbers, and strings as lists of characters.
A Prisma interactive transaction rolls back all of its writes when its body
throws, so a transaction body is modelled as a function returning
`Except String Db`: an `.error` result leaves the caller with the unchanged
pre-state, which is exactly the rollback semantics.
-/

namespace Payme

/-! ## Debt interest calculation

The debts page imports `calculateRemainingWithInterest` from
`utils/interestCalculation`, a module that is not part of the visible source;
only its call sites are.  The definitions in this section are therefore
modelled from the specification text rather than translated from code.
-/

/-- A repayment against a debt: an amount and the day it was made. -/
structure Repayment where
  amount : ℚ
  date : ℤ
deriving DecidableEq, Repr

/-- The result record of the calculator. -/
structure InterestResult where
  totalWithInterest : ℚ
  remainingAmount : ℚ
deriving DecidableEq, Repr

/-- The evaluation point of the calculation: the due date when one is given,
otherwise the current day. -/
def evalDate (dueDate : Option ℤ) (today : ℤ) : ℤ :=
  dueDate.getD today

/-- Modelled from the spec: `calculateRemainingWithInterest` of
`utils/interestCalculation` (module absent from the visible source; only its
call sites in the debts page are).  Per the spec, interest accrues linearly
(simple interest) since the start date at
`principal * rate/100 * (days elapsed / 365)`, the total owed is the principal
plus the accrued interest as of the evaluation point, and repayments are
subtracted from the total owed, with interest never recomputed retroactively,
and over-repayment unguarded. -/
def calculateRemainingWithInterest (principal rate : ℚ) (lentDate : ℤ)
    (dueDate : Option ℤ) (today : ℤ) (repayments : List Repayment) :
    InterestResult :=
  let daysElapsed : ℤ := evalDate dueDate today - lentDate
  let interest : ℚ := principal * (rate / 100) * ((daysElapsed : ℚ) / 365)
  let total := principal + interest
  let repaid := (repayments.map (fun r => r.amount)).sum
  ⟨total, total - repaid⟩

/-- Repayments listed in chronological order. -/
def Chronological (repayments : List Repayment) : Prop :=
  repayments.Chain' (fun a b => a.date ≤ b.date)

instance (repayments : List Repayment) : Decidable (Chronological repayments) :=
  inferInstanceAs (Decidable (List.Chain' _ repayments))

/-- C1: for principal `P ≥ 0`, annual rate `r`, start day `s` and evaluation
point `evalDate due today` (the due date when given, otherwise today),
the calculator returns
`totalWithInterest = P + P * r/100 * (days elapsed / 365)`. -/
theorem calculateRemainingWithInterest_total_formula
    (P r : ℚ) (s : ℤ) (due : Option ℤ) (today : ℤ) (reps : List Repayment)
    (hP : 0 ≤ P) :
    (calculateRemainingWithInterest P r s due today reps).totalWithInterest
      = P + P * (r / 100) * (((evalDate due today - s : ℤ) : ℚ) / 365) :=
  rfl

/-- C1 witness: principal 1000 at 12 percent per year, 365 days elapsed and no
repayments gives `totalWithInterest = 1120` and `remainingAmount = 1120`. -/
theorem calculateRemainingWithInterest_total_formula_witness :
    (calculateRemainingWithInterest 1000 12 0 none 365 []).totalWithInterest = 1120
      ∧ (calculateRemainingWithInterest 1000 12 0 none 365 []).remainingAmount = 1120 := by
  constructor
  · exact (calculateRemainingWithInterest_total_formula 1000 12 0 none 365 []
      (by norm_num)).trans (by norm_num [evalDate])
  · norm_num [calculateRemainingWithInterest, evalDate]

/-- C2: for every chronological repayment list, `remainingAmount` equals
`totalWithInterest` minus the sum of the repayment amounts (so a repayment
equal to the total zeroes the balance, and over-repayment drives it
negative, unguarded). -/
theorem calculateRemainingWithInterest_remaining_eq_total_sub_repaid
    (P r : ℚ) (s : ℤ) (due : Option ℤ) (today : ℤ) (reps : List Repayment)
    (hchron : Chronological reps) :
    (calculateRemainingWithInterest P r s due today reps).remainingAmount
      = (calculateRemainingWithInterest P r s due today reps).totalWithInterest
        - (reps.map (fun rp => rp.amount)).sum :=
  rfl

/-- C2 witness: principal 1000 at rate 0 with a single chronologically listed
repayment of 400 leaves `remainingAmount = 600`. -/
theorem calculateRemainingWithInterest_remaining_eq_total_sub_repaid_witness :
    Chronological [⟨400, 10⟩]
      ∧ (calculateRemainingWithInterest 1000 0 0 none 100 [⟨400, 10⟩]).remainingAmount = 600 := by
  refine ⟨by simp [Chronological], ?_⟩
  exact (calculateRemainingWithInterest_remaining_eq_total_sub_repaid
      1000 0 0 none 100 [⟨400, 10⟩] (by simp [Chronological])).trans
    (by norm_num [calculateRemainingWithInterest, evalDate])

/-- C3: when the annual rate is 0 the total with interest equals the
principal, whatever the elapsed time and repayments. -/
theorem calculateRemainingWithInterest_rate_zero
    (P r : ℚ) (s : ℤ) (due : Option ℤ) (today : ℤ) (reps : List Repayment)
    (hr : r = 0) :
    (calculateRemainingWithInterest P r s due today reps).totalWithInterest = P := by
  subst hr
  simp [calculateRemainingWithInterest]

/-- C3 witness: rate 0 on principal 1000 after 5000 days still totals 1000. -/
theorem calculateRemainingWithInterest_rate_zero_witness :
    (calculateRemainingWithInterest 1000 0 0 (some 5000) 42 []).totalWithInterest = 1000 :=
  calculateRemainingWithInterest_rate_zero 1000 0 0 (some 5000) 42 [] rfl

/-- C4: with no repayments the remaining amount equals the total with
interest. -/
theorem calculateRemainingWithInterest_no_repayments
    (P r : ℚ) (s : ℤ) (due : Option ℤ) (today : ℤ) :
    (calculateRemainingWithInterest P r s due today []).remainingAmount
      = (calculateRemainingWithInterest P r s due today []).totalWithInterest := by
  simp [calculateRemainingWithInterest]

/-- C5 counterexample: a start date 365 days in the future of the evaluation
point, with principal 1000 and rate 12, yields `totalWithInterest = 880`,
strictly below the principal: `totalWithInterest ≥ principal` fails for a
future start date even with rate ≥ 0. -/
theorem calculateRemainingWithInterest_future_start_counterexample :
    (calculateRemainingWithInterest 1000 12 365 none 0 []).totalWithInterest = 880
      ∧ ¬ (1000 : ℚ) ≤ (calculateRemainingWithInterest 1000 12 365 none 0 []).totalWithInterest := by
  norm_num [calculateRemainingWithInterest, evalDate]

/-- C5 (amended): when the rate and the principal are non-negative and the
start date does not lie after the evaluation point, the total with interest
is at least the principal. -/
theorem calculateRemainingWithInterest_total_ge_principal
    (P r : ℚ) (s : ℤ) (due : Option ℤ) (today : ℤ) (reps : List Repayment)
    (hP : 0 ≤ P) (hr : 0 ≤ r) (hs : s ≤ evalDate due today) :
    P ≤ (calculateRemainingWithInterest P r s due today reps).totalWithInterest := by
  have hd : (0 : ℚ) ≤ ((evalDate due today - s : ℤ) : ℚ) := by
    exact_mod_cast Int.sub_nonneg.mpr hs
  have hnn : 0 ≤ P * (r / 100) * (((evalDate due today - s : ℤ) : ℚ) / 365) := by
    have h1 : 0 ≤ P * (r / 100) := mul_nonneg hP (by positivity)
    exact mul_nonneg h1 (by positivity)
  calc P = P + 0 := by ring
    _ ≤ P + P * (r / 100) * (((evalDate due today - s : ℤ) : ℚ) / 365) := by
        exact add_le_add_left hnn P
    _ = (calculateRemainingWithInterest P r s due today reps).totalWithInterest := rfl

/-- C5 witness: principal 1000 at rate 12 with the start date 365 days before
the evaluation point satisfies the amended bound. -/
theorem calculateRemainingWithInterest_total_ge_principal_witness :
    (1000 : ℚ) ≤ (calculateRemainingWithInterest 1000 12 0 none 365 []).totalWithInterest :=
  calculateRemainingWithInterest_total_ge_principal 1000 12 0 none 365 []
    (by norm_num) (by norm_num) (by norm_num [evalDate])

/-- C6: for fixed non-negative principal, positive rate and start date, the
accrued interest (total with interest minus principal) is monotonically
non-decreasing in the evaluation point. -/
theorem calculateRemainingWithInterest_interest_monotone
    (P r : ℚ) (s : ℤ) (t1 t2 : ℤ) (reps : List Repayment)
    (hP : 0 ≤ P) (hr : 0 < r) (h12 : t1 ≤ t2) :
    (calculateRemainingWithInterest P r s none t1 reps).totalWithInterest - P
      ≤ (calculateRemainingWithInterest P r s none t2 reps).totalWithInterest - P := by
  have hcast : ((t1 - s : ℤ) : ℚ) ≤ ((t2 - s : ℤ) : ℚ) := by
    exact_mod_cast sub_le_sub_right h12 s
  have h1 : (calculateRemainingWithInterest P r s none t1 reps).totalWithInterest - P
      = P * (r / 100) * (((t1 - s : ℤ) : ℚ) / 365) := by
    simp [calculateRemainingWithInterest, evalDate]
  have h2 : (calculateRemainingWithInterest P r s none t2 reps).totalWithInterest - P
      = P * (r / 100) * (((t2 - s : ℤ) : ℚ) / 365) := by
    simp [calculateRemainingWithInterest, evalDate]
  rw [h1, h2]
  have hPr : 0 ≤ P * (r / 100) := mul_nonneg hP (by positivity)
  have hdiv : (((t1 - s : ℤ) : ℚ) / 365) ≤ (((t2 - s : ℤ) : ℚ) / 365) := by
    apply div_le_div_of_nonneg_right hcast
    norm_num
  exact mul_le_mul_of_nonneg_left hdiv hPr

/-- C6 witness: with principal 1000, rate 12, start day 0, the interest
accrued by day 100 is at most the interest accrued by day 200. -/
theorem calculateRemainingWithInterest_interest_monotone_witness :
    (calculateRemainingWithInterest 1000 12 0 none 100 []).totalWithInterest - 1000
      ≤ (calculateRemainingWithInterest 1000 12 0 none 200 []).totalWithInterest - 1000 :=
  calculateRemainingWithInterest_interest_monotone 1000 12 0 100 200 []
    (by norm_num) (by norm_num) (by norm_num)

/-! ## Database model for the server actions

Rows of the Prisma models that `createInvestment`, `deleteInvestment` and
`bulkDeleteAccounts` touch.  Only the columns those actions read or write are
modelled; `accountId` is nullable on `Expense`, `Income` and `Investment`
exactly as in `schema.prisma`.
-/

/-- The investment `type` enum of `types/investments.tsx` / `schema.prisma`. -/
inductive InvestmentType
  | STOCKS
  | CRYPTO
  | MUTUAL_FUNDS
  | BONDS
  | REAL_ESTATE
  | GOLD
  | FIXED_DEPOSIT
  | PROVIDENT_FUNDS
  | SAFE_KEEPINGS
  | OTHER
deriving DecidableEq, Repr

/-- An `Account` row: id, owner, bank name and balance. -/
structure Account where
  id : ℕ
  userId : ℤ
  bankName : String
  balance : ℚ
deriving DecidableEq, Repr

/-- An `Investment` row, with the columns the actions use. -/
structure Investment where
  id : ℕ
  userId : ℤ
  accountId : Option ℕ
  type : InvestmentType
  quantity : ℚ
  purchasePrice : ℚ
deriving DecidableEq, Repr

/-- An `Expense` row (only its nullable `accountId` matters here). -/
structure Expense where
  id : ℕ
  accountId : Option ℕ
deriving DecidableEq, Repr

/-- An `Income` row (only its nullable `accountId` matters here). -/
structure Income where
  id : ℕ
  accountId : Option ℕ
deriving DecidableEq, Repr

/-- The database state the three actions read and write. -/
structure Db where
  accounts : List Account
  investments : List Investment
  expenses : List Expense
  incomes : List Income
deriving DecidableEq, Repr

/-- The data of a `createInvestment` request (the fields of the
`InvestmentInterface` argument that the transaction body uses). -/
structure InvestmentInput where
  accountId : Option ℕ
  type : InvestmentType
  quantity : ℚ
  purchasePrice : ℚ
deriving DecidableEq, Repr

/-- Total amount moved for an investment, as computed in both
`createInvestment` and `deleteInvestment`: the purchase price alone for
`FIXED_DEPOSIT`, `PROVIDENT_FUNDS` and `SAFE_KEEPINGS`, otherwise
`quantity * purchasePrice`. -/
def totalInvestmentAmount (t : InvestmentType) (quantity purchasePrice : ℚ) : ℚ :=
  if t = .FIXED_DEPOSIT ∨ t = .PROVIDENT_FUNDS ∨ t = .SAFE_KEEPINGS then
    purchasePrice
  else
    quantity * purchasePrice

/-- Prisma `account.findUnique({ where: { id } })`. -/
def findAccount (accounts : List Account) (accId : ℕ) : Option Account :=
  accounts.find? (fun a => a.id == accId)

/-- Prisma `account.update` with a balance `increment`/`decrement` of
`delta` on the row with id `accId` (rows with other ids are untouched). -/
def adjustBalance (accounts : List Account) (accId : ℕ) (delta : ℚ) :
    List Account :=
  accounts.map (fun a => if a.id = accId then { a with balance := a.balance + delta } else a)

/-- The transaction body of `createInvestment` in
`apps/web/app/actions/investments.ts`: when the input names an account, the
account is looked up (error when absent), the balance is checked against the
total investment amount (error when insufficient), the investment row is
created, and the balance is decremented; with no account named the row is
just created.  `newId` is the id the database assigns to the created row; an
`.error` result models the transaction rolling every write back. -/
def createInvestment (db : Db) (userId : ℤ) (newId : ℕ) (inv : InvestmentInput) :
    Except String Db :=
  match inv.accountId with
  | none =>
      .ok { db with investments :=
              db.investments ++ [⟨newId, userId, none, inv.type, inv.quantity, inv.purchasePrice⟩] }
  | some accId =>
      match findAccount db.accounts accId with
      | none => .error "Selected account not found"
      | some account =>
          let amount := totalInvestmentAmount inv.type inv.quantity inv.purchasePrice
          if account.balance < amount then
            .error "Insufficient balance"
          else
            .ok { db with
                  investments :=
                    db.investments ++ [⟨newId, userId, some accId, inv.type, inv.quantity, inv.purchasePrice⟩],
                  accounts := adjustBalance db.accounts accId (-amount) }

/-- The transaction body of `deleteInvestment` in
`apps/web/app/actions/investments.ts`: the investment row is looked up by id
and owner (error when absent), deleted, and when it was linked to an account
that account's balance is incremented by the total investment amount (Prisma
`account.update` throws when the linked account row no longer exists). -/
def deleteInvestment (db : Db) (userId : ℤ) (invId : ℕ) : Except String Db :=
  match db.investments.find? (fun i => i.id == invId && i.userId == userId) with
  | none => .error "Investment not found or unauthorized"
  | some existing =>
      let dbDeleted := { db with investments := db.investments.filter (fun i => i.id != invId) }
      match existing.accountId with
      | none => .ok dbDeleted
      | some accId =>
          if dbDeleted.accounts.any (fun a => a.id == accId) then
            .ok { dbDeleted with
                  accounts := adjustBalance dbDeleted.accounts accId
                    (totalInvestmentAmount existing.type existing.quantity existing.purchasePrice) }
          else
            .error "Account to restore not found"

/-- Does a nullable `accountId` column reference one of the given ids
(Prisma `accountId: { in: accountIds }`, never matched by `NULL`)? -/
def refsAccount (accountIds : List ℕ) (accId : Option ℕ) : Bool :=
  match accId with
  | some a => accountIds.contains a
  | none => false

/-- The body of `bulkDeleteAccounts` in `apps/web/app/actions/accounts.tsx`:
fetch the accounts whose id is among `accountIds` and whose owner is
`userId`; error unless their number equals the length of `accountIds`; error
when any expense, income or investment references one of the ids; otherwise
delete those accounts. -/
def bulkDeleteAccounts (db : Db) (userId : ℤ) (accountIds : List ℕ) :
    Except String Db :=
  let existingAccounts :=
    db.accounts.filter (fun a => accountIds.contains a.id && a.userId == userId)
  if existingAccounts.length ≠ accountIds.length then
    .error "Some accounts not found or unauthorized"
  else
    let expenseCount := (db.expenses.filter (fun e => refsAccount accountIds e.accountId)).length
    let incomeCount := (db.incomes.filter (fun i => refsAccount accountIds i.accountId)).length
    let investmentCount := (db.investments.filter (fun i => refsAccount accountIds i.accountId)).length
    if expenseCount > 0 ∨ incomeCount > 0 ∨ investmentCount > 0 then
      .error "Cannot delete accounts that are referenced by transactions"
    else
      .ok { db with accounts :=
              db.accounts.filter (fun a => !(accountIds.contains a.id && a.userId == userId)) }

/-! ### Helper lemmas about `findAccount` and `adjustBalance` -/

/-- Adjusting a balance does not change which row `findAccount` locates: it
returns the located row with its balance shifted by `delta`. -/
theorem findAccount_adjustBalance (accounts : List Account) (accId : ℕ) (delta : ℚ) :
    findAccount (adjustBalance accounts accId delta) accId
      = (findAccount accounts accId).map (fun a => { a with balance := a.balance + delta }) := by
  induction accounts with
  | nil => rfl
  | cons a rest ih =>
    by_cases h : a.id = accId
    · simp [findAccount, adjustBalance, List.find?_cons, h]
    · simpa [findAccount, adjustBalance, List.find?_cons, h] using ih

/-- Rows whose id differs from the adjusted one are untouched by
`adjustBalance`. -/
theorem mem_adjustBalance_of_ne (accounts : List Account) (accId : ℕ) (delta : ℚ)
    (a : Account) (ha : a ∈ accounts) (hne : a.id ≠ accId) :
    a ∈ adjustBalance accounts accId delta := by
  unfold adjustBalance
  exact List.mem_map.mpr ⟨a, ha, by simp [hne]⟩

/-- Two successive balance adjustments of the same row add up. -/
theorem adjustBalance_adjustBalance (accounts : List Account) (accId : ℕ) (d1 d2 : ℚ) :
    adjustBalance (adjustBalance accounts accId d1) accId d2
      = adjustBalance accounts accId (d1 + d2) := by
  unfold adjustBalance
  rw [List.map_map]
  apply List.map_congr_left
  intro a _
  by_cases h : a.id = accId
  · simp [Function.comp, h, add_assoc]
  · simp [Function.comp, h]

/-- Adjusting a balance by zero is the identity. -/
theorem adjustBalance_zero (accounts : List Account) (accId : ℕ) :
    adjustBalance accounts accId 0 = accounts := by
  unfold adjustBalance
  have hfun : (fun a : Account => if a.id = accId then { a with balance := a.balance + 0 } else a)
      = fun a => a := by
    funext a
    by_cases h : a.id = accId
    · rw [if_pos h, add_zero]
    · rw [if_neg h]
  rw [hfun]
  exact List.map_id _

/-- Adjusting a balance preserves the ids present in the account list. -/
theorem any_id_adjustBalance (accounts : List Account) (accId accId2 : ℕ) (delta : ℚ) :
    (adjustBalance accounts accId delta).any (fun a => a.id == accId2)
      = accounts.any (fun a => a.id == accId2) := by
  unfold adjustBalance
  rw [List.any_map]
  congr 1
  funext a
  by_cases h : a.id = accId <;> simp [Function.comp, h]

/-- C7: when `createInvestment` names an account that exists, it fails with
the insufficient-balance error exactly when the account balance is below the
total investment amount, and no row or balance changes survive the failed
transaction; on sufficient balance it creates exactly the requested
investment row and decrements that account balance by exactly the total
investment amount, leaving every other account row and the other tables
unchanged, all inside the one transaction. -/
theorem createInvestment_balance_check
    (db : Db) (uid : ℤ) (newId : ℕ) (inv : InvestmentInput) (accId : ℕ) (account : Account)
    (hacc : inv.accountId = some accId)
    (hfind : findAccount db.accounts accId = some account) :
    (account.balance < totalInvestmentAmount inv.type inv.quantity inv.purchasePrice →
        createInvestment db uid newId inv = .error "Insufficient balance")
    ∧ (totalInvestmentAmount inv.type inv.quantity inv.purchasePrice ≤ account.balance →
        ∃ db', createInvestment db uid newId inv = .ok db'
          ∧ db'.investments
              = db.investments ++ [⟨newId, uid, some accId, inv.type, inv.quantity, inv.purchasePrice⟩]
          ∧ findAccount db'.accounts accId
              = some { account with balance :=
                  account.balance - totalInvestmentAmount inv.type inv.quantity inv.purchasePrice }
          ∧ (∀ a ∈ db.accounts, a.id ≠ accId → a ∈ db'.accounts)
          ∧ db'.expenses = db.expenses
          ∧ db'.incomes = db.incomes) := by
  constructor
  · intro hlt
    unfold createInvestment
    rw [hacc]
    simp only [hfind]
    rw [if_pos hlt]
  · intro hle
    refine ⟨{ db with
        investments :=
          db.investments ++ [⟨newId, uid, some accId, inv.type, inv.quantity, inv.purchasePrice⟩],
        accounts := adjustBalance db.accounts accId
          (-(totalInvestmentAmount inv.type inv.quantity inv.purchasePrice)) }, ?_, rfl, ?_, ?_, rfl, rfl⟩
    · unfold createInvestment
      rw [hacc]
      simp only [hfind]
      rw [if_neg (not_lt.mpr hle)]
    · rw [findAccount_adjustBalance, hfind]
      simp [sub_eq_add_neg]
    · intro a ha hne
      exact mem_adjustBalance_of_ne db.accounts accId _ a ha hne

/-- C7 witness: on a database with one account of balance 50, requesting a
stock investment of quantity 2 at price 30 (total 60) fails with the
insufficient-balance error, while total 60 against balance 60 succeeds. -/
theorem createInvestment_balance_check_witness :
    createInvestment ⟨[⟨1, 7, "b", 50⟩], [], [], []⟩ 7 1 ⟨some 1, .STOCKS, 2, 30⟩
        = .error "Insufficient balance"
      ∧ ∃ db', createInvestment ⟨[⟨1, 7, "b", 60⟩], [], [], []⟩ 7 1 ⟨some 1, .STOCKS, 2, 30⟩
        = .ok db' := by
  constructor
  · exact (createInvestment_balance_check ⟨[⟨1, 7, "b", 50⟩], [], [], []⟩ 7 1
      ⟨some 1, .STOCKS, 2, 30⟩ 1 ⟨1, 7, "b", 50⟩ rfl (by decide)).1
      (by rw [totalInvestmentAmount, if_neg (by decide)]; norm_num)
  · obtain ⟨db', hdb', -⟩ := (createInvestment_balance_check ⟨[⟨1, 7, "b", 60⟩], [], [], []⟩ 7 1
      ⟨some 1, .STOCKS, 2, 30⟩ 1 ⟨1, 7, "b", 60⟩ rfl (by decide)).2
      (by rw [totalInvestmentAmount, if_neg (by decide)]; norm_num)
    exact ⟨db', hdb'⟩

/-- Looking an investment up by id and owner in a list extended with a fresh
row finds exactly the fresh row. -/
theorem find?_fresh_investment (invs : List Investment) (newInv : Investment)
    (newId : ℕ) (uid : ℤ) (hfresh : ∀ i ∈ invs, i.id ≠ newId)
    (hid : newInv.id = newId) (huid : newInv.userId = uid) :
    (invs ++ [newInv]).find? (fun i => i.id == newId && i.userId == uid) = some newInv := by
  rw [List.find?_append]
  have h1 : invs.find? (fun i => i.id == newId && i.userId == uid) = none := by
    rw [List.find?_eq_none]
    intro x hx
    simp [hfresh x hx]
  rw [h1]
  simp [hid, huid]

/-- Deleting a fresh row from a list extended with it restores the list. -/
theorem filter_fresh_investment (invs : List Investment) (newInv : Investment)
    (newId : ℕ) (hfresh : ∀ i ∈ invs, i.id ≠ newId) (hid : newInv.id = newId) :
    (invs ++ [newInv]).filter (fun i => i.id != newId) = invs := by
  rw [List.filter_append]
  have h2 : [newInv].filter (fun i => i.id != newId) = [] := by simp [hid]
  have h3 : invs.filter (fun i => i.id != newId) = invs :=
    List.filter_eq_self.mpr (fun a ha => by simp [hfresh a ha])
  rw [h2, h3, List.append_nil]

/-- C8: a successful `createInvestment` followed by `deleteInvestment` of the
created row (whose id is fresh) succeeds and restores the account list — in
particular every account balance — and the investment, expense and income
tables exactly to their pre-create state: the delete increments the linked
balance by exactly the amount the create decremented it. -/
theorem createInvestment_deleteInvestment_roundtrip
    (db : Db) (uid : ℤ) (newId : ℕ) (inv : InvestmentInput) (db' : Db)
    (hfresh : ∀ i ∈ db.investments, i.id ≠ newId)
    (hok : createInvestment db uid newId inv = .ok db') :
    ∃ db'', deleteInvestment db' uid newId = .ok db''
      ∧ db''.accounts = db.accounts
      ∧ db''.investments = db.investments
      ∧ db''.expenses = db.expenses
      ∧ db''.incomes = db.incomes := by
  unfold createInvestment at hok
  cases hacc : inv.accountId with
  | none =>
    simp only [hacc, Except.ok.injEq] at hok
    subst hok
    refine ⟨{ db with investments :=
        ((db.investments ++ [(⟨newId, uid, none, inv.type, inv.quantity, inv.purchasePrice⟩ : Investment)]).filter
          (fun i => i.id != newId)) }, ?_, rfl, ?_, rfl, rfl⟩
    · simp only [deleteInvestment,
        find?_fresh_investment db.investments
          (⟨newId, uid, none, inv.type, inv.quantity, inv.purchasePrice⟩ : Investment)
          newId uid hfresh rfl rfl]
    · exact filter_fresh_investment db.investments _ newId hfresh rfl
  | some accId =>
    simp only [hacc] at hok
    cases hfa : findAccount db.accounts accId with
    | none =>
      simp only [hfa] at hok
      exact absurd hok (by simp)
    | some account =>
      simp only [hfa] at hok
      by_cases hlt : account.balance < totalInvestmentAmount inv.type inv.quantity inv.purchasePrice
      · rw [if_pos hlt] at hok
        exact absurd hok (by simp)
      · rw [if_neg hlt] at hok
        simp only [Except.ok.injEq] at hok
        subst hok
        have hfa2 : db.accounts.find? (fun a => a.id == accId) = some account := hfa
        have haccid : (account.id == accId) = true := @List.find?_some _ (fun a => a.id == accId) account db.accounts hfa2
        have haccmem : account ∈ db.accounts := @List.mem_of_find?_eq_some _ (fun a => a.id == accId) account db.accounts hfa2
        have hany : ((adjustBalance db.accounts accId
            (-(totalInvestmentAmount inv.type inv.quantity inv.purchasePrice))).any
              (fun a => a.id == accId)) = true := by
          rw [any_id_adjustBalance]
          exact List.any_eq_true.mpr ⟨account, haccmem, haccid⟩
        refine ⟨{ db with
            investments :=
              ((db.investments ++ [(⟨newId, uid, some accId, inv.type, inv.quantity, inv.purchasePrice⟩ : Investment)]).filter
                (fun i => i.id != newId)),
            accounts := (adjustBalance
              (adjustBalance db.accounts accId
                (-(totalInvestmentAmount inv.type inv.quantity inv.purchasePrice)))
              accId (totalInvestmentAmount inv.type inv.quantity inv.purchasePrice)) },
          ?_, ?_, ?_, rfl, rfl⟩
        · simp only [deleteInvestment,
            find?_fresh_investment db.investments
              (⟨newId, uid, some accId, inv.type, inv.quantity, inv.purchasePrice⟩ : Investment)
              newId uid hfresh rfl rfl, hany, if_true]
        · rw [adjustBalance_adjustBalance]
          simp [adjustBalance_zero]
        · exact filter_fresh_investment db.investments _ newId hfresh rfl

/-- C8 witness: creating a stock investment of total 60 against an account of
balance 60 and then deleting it restores the single account to balance 60 and
the investment table to empty. -/
theorem createInvestment_deleteInvestment_roundtrip_witness :
    ∃ db'', deleteInvestment
        ⟨[⟨1, 7, "b", 0⟩], [⟨5, 7, some 1, .STOCKS, 2, 30⟩], [], []⟩ 7 5 = .ok db''
      ∧ db''.accounts = (⟨[⟨1, 7, "b", 60⟩], [], [], []⟩ : Db).accounts
      ∧ db''.investments = (⟨[⟨1, 7, "b", 60⟩], [], [], []⟩ : Db).investments
      ∧ db''.expenses = (⟨[⟨1, 7, "b", 60⟩], [], [], []⟩ : Db).expenses
      ∧ db''.incomes = (⟨[⟨1, 7, "b", 60⟩], [], [], []⟩ : Db).incomes :=
  createInvestment_deleteInvestment_roundtrip
    ⟨[⟨1, 7, "b", 60⟩], [], [], []⟩ 7 5 ⟨some 1, .STOCKS, 2, 30⟩
    ⟨[⟨1, 7, "b", 0⟩], [⟨5, 7, some 1, .STOCKS, 2, 30⟩], [], []⟩
    (by simp)
    (by norm_num [createInvestment, findAccount, totalInvestmentAmount, adjustBalance,
      List.find?_cons,
      (by decide : ¬(InvestmentType.STOCKS = InvestmentType.FIXED_DEPOSIT
        ∨ InvestmentType.STOCKS = InvestmentType.PROVIDENT_FUNDS
        ∨ InvestmentType.STOCKS = InvestmentType.SAFE_KEEPINGS))])

/-! ### bulkDeleteAccounts -/

/-- Every requested id is the id of an account owned by the user. -/
def OwnsAll (db : Db) (userId : ℤ) (accountIds : List ℕ) : Prop :=
  ∀ accId ∈ accountIds, ∃ a ∈ db.accounts, a.id = accId ∧ a.userId = userId

/-- No expense, income or investment row references any of the requested
account ids. -/
def Unreferenced (db : Db) (accountIds : List ℕ) : Prop :=
  (∀ e ∈ db.expenses, refsAccount accountIds e.accountId = false)
    ∧ (∀ i ∈ db.incomes, refsAccount accountIds i.accountId = false)
    ∧ (∀ i ∈ db.investments, refsAccount accountIds i.accountId = false)

/-- The ownership check of `bulkDeleteAccounts` — comparing the number of
fetched rows with the number of requested ids — is equivalent to every
requested id belonging to the user, provided the requested ids are distinct
and the account table has unique ids. -/
theorem length_filter_owned_eq_iff (db : Db) (userId : ℤ) (accountIds : List ℕ)
    (hids : accountIds.Nodup) (hdb : (db.accounts.map (fun a => a.id)).Nodup) :
    (db.accounts.filter (fun a => accountIds.contains a.id && a.userId == userId)).length
        = accountIds.length
      ↔ OwnsAll db userId accountIds := by
  have hsub : ((db.accounts.filter
      (fun a => accountIds.contains a.id && a.userId == userId)).map (fun a => a.id)).Nodup :=
    ((List.filter_sublist db.accounts).map (fun a => a.id)).nodup hdb
  have hsubset : ((db.accounts.filter
      (fun a => accountIds.contains a.id && a.userId == userId)).map (fun a => a.id))
        ⊆ accountIds := by
    intro x hx
    obtain ⟨a, ha, hax⟩ := List.mem_map.mp hx
    have := (List.mem_filter.mp ha).2
    simp only [Bool.and_eq_true] at this
    rcases this with ⟨hc, -⟩
    rw [← hax]
    simpa using hc
  have hsp : ((db.accounts.filter
      (fun a => accountIds.contains a.id && a.userId == userId)).map (fun a => a.id)).Subperm
        accountIds := hsub.subperm hsubset
  constructor
  · intro hlen
    have hperm : ((db.accounts.filter
        (fun a => accountIds.contains a.id && a.userId == userId)).map (fun a => a.id)).Perm
          accountIds := by
      apply hsp.perm_of_length_le
      rw [List.length_map]
      exact hlen.ge
    intro accId hmem
    have : accId ∈ (db.accounts.filter
        (fun a => accountIds.contains a.id && a.userId == userId)).map (fun a => a.id) :=
      hperm.mem_iff.mpr hmem
    obtain ⟨a, ha, hax⟩ := List.mem_map.mp this
    have hmf := List.mem_filter.mp ha
    have hp := hmf.2
    simp only [Bool.and_eq_true, beq_iff_eq] at hp
    exact ⟨a, hmf.1, hax, hp.2⟩
  · intro hown
    have hsup : accountIds ⊆ (db.accounts.filter
        (fun a => accountIds.contains a.id && a.userId == userId)).map (fun a => a.id) := by
      intro accId hmem
      obtain ⟨a, ha, haid, hauid⟩ := hown accId hmem
      refine List.mem_map.mpr ⟨a, ?_, haid⟩
      refine List.mem_filter.mpr ⟨ha, ?_⟩
      simp only [Bool.and_eq_true, beq_iff_eq]
      exact ⟨by simp [haid, hmem], hauid⟩
    have hperm := (hids.subperm hsup).antisymm hsp
    have := hperm.length_eq
    simp only [List.length_map] at this
    omega
  
/-- Under unique account ids, when every requested id is owned by the user
the deletion filter of `bulkDeleteAccounts` removes exactly the accounts
whose id was requested. -/
theorem filter_owned_eq_filter_id (db : Db) (uid : ℤ) (ids : List ℕ)
    (hdb : (db.accounts.map (fun a => a.id)).Nodup)
    (hown : OwnsAll db uid ids) :
    db.accounts.filter (fun a => !(ids.contains a.id && a.userId == uid))
      = db.accounts.filter (fun a => !(ids.contains a.id)) := by
  apply List.filter_congr
  intro a ha
  cases hcb : ids.contains a.id with
  | false => rfl
  | true =>
    obtain ⟨b, hb, hbid, hbuid⟩ := hown a.id (by simpa using hcb)
    have hab : a = b := List.inj_on_of_nodup_map hdb ha hb (by rw [hbid])
    subst hab
    rw [hbuid]
    simp

/-- C9 counterexample: with a single account (id 1, owned by user 7) and no
referencing rows, requesting deletion of the duplicated id list `[1, 1]`
satisfies both of the claimed conditions — every requested id belongs to the
user and nothing references the accounts — yet `bulkDeleteAccounts` throws
its ownership error, deleting nothing. -/
theorem bulkDeleteAccounts_duplicate_ids_counterexample :
    OwnsAll ⟨[⟨1, 7, "b", 0⟩], [], [], []⟩ 7 [1, 1]
      ∧ Unreferenced ⟨[⟨1, 7, "b", 0⟩], [], [], []⟩ [1, 1]
      ∧ bulkDeleteAccounts ⟨[⟨1, 7, "b", 0⟩], [], [], []⟩ 7 [1, 1]
          = .error "Some accounts not found or unauthorized" := by
  refine ⟨?_, ?_, rfl⟩
  · intro accId hmem
    refine ⟨⟨1, 7, "b", 0⟩, by simp, ?_, rfl⟩
    simp only [List.mem_cons, List.not_mem_nil, or_false] at hmem
    rcases hmem with h | h <;> simp [h]
  · exact ⟨fun e hme => absurd hme (List.not_mem_nil e),
      fun i hmi => absurd hmi (List.not_mem_nil i),
      fun i hmi => absurd hmi (List.not_mem_nil i)⟩

/-- C9 (amended): provided the requested ids are distinct (and account ids
are unique), `bulkDeleteAccounts` succeeds exactly when every requested id
belongs to the user and no expense, income or investment references one of
them; on success it removes exactly the requested accounts and touches no
other table, and on failure it throws, deleting nothing — the transaction
leaves the state unchanged. -/
theorem bulkDeleteAccounts_spec (db : Db) (uid : ℤ) (ids : List ℕ)
    (hids : ids.Nodup) (hdb : (db.accounts.map (fun a => a.id)).Nodup) :
    ((∃ db2, bulkDeleteAccounts db uid ids = .ok db2)
        ↔ OwnsAll db uid ids ∧ Unreferenced db ids)
      ∧ (∀ db2, bulkDeleteAccounts db uid ids = .ok db2 →
          db2.accounts = db.accounts.filter (fun a => !(ids.contains a.id))
            ∧ db2.investments = db.investments
            ∧ db2.expenses = db.expenses
            ∧ db2.incomes = db.incomes) := by
  unfold bulkDeleteAccounts
  by_cases hlen : (db.accounts.filter
      (fun a => ids.contains a.id && a.userId == uid)).length = ids.length
  · rw [if_neg (by simpa using hlen)]
    by_cases hcnt : (db.expenses.filter (fun e => refsAccount ids e.accountId)).length > 0
        ∨ (db.incomes.filter (fun i => refsAccount ids i.accountId)).length > 0
        ∨ (db.investments.filter (fun i => refsAccount ids i.accountId)).length > 0
    · rw [if_pos hcnt]
      constructor
      · constructor
        · rintro ⟨db2, hdb2⟩
          exact absurd hdb2 (by simp)
        · rintro ⟨hown, hunref⟩
          exfalso
          obtain ⟨he, hi, hv⟩ := hunref
          rcases hcnt with h | h | h
          · rw [List.filter_eq_nil_iff.mpr (fun e hme => by simp [he e hme])] at h
            exact absurd h (by simp)
          · rw [List.filter_eq_nil_iff.mpr (fun i hmi => by simp [hi i hmi])] at h
            exact absurd h (by simp)
          · rw [List.filter_eq_nil_iff.mpr (fun i hmi => by simp [hv i hmi])] at h
            exact absurd h (by simp)
      · intro db2 hdb2
        exact absurd hdb2 (by simp)
    · rw [if_neg hcnt]
      push_neg at hcnt
      obtain ⟨he, hi, hv⟩ := hcnt
      have hown : OwnsAll db uid ids :=
        (length_filter_owned_eq_iff db uid ids hids hdb).mp hlen
      have hunref : Unreferenced db ids := by
        refine ⟨?_, ?_, ?_⟩
        · intro e hme
          have := List.filter_eq_nil_iff.mp (List.length_eq_zero.mp (Nat.le_zero.mp he))
          simpa using this e hme
        · intro i hmi
          have := List.filter_eq_nil_iff.mp (List.length_eq_zero.mp (Nat.le_zero.mp hi))
          simpa using this i hmi
        · intro i hmi
          have := List.filter_eq_nil_iff.mp (List.length_eq_zero.mp (Nat.le_zero.mp hv))
          simpa using this i hmi
      refine ⟨⟨fun _ => ⟨hown, hunref⟩, fun _ => ⟨_, rfl⟩⟩, ?_⟩
      intro db2 hdb2
      simp only [Except.ok.injEq] at hdb2
      subst hdb2
      exact ⟨filter_owned_eq_filter_id db uid ids hdb hown, rfl, rfl, rfl⟩
  · rw [if_pos hlen]
    constructor
    · constructor
      · rintro ⟨db2, hdb2⟩
        exact absurd hdb2 (by simp)
      · rintro ⟨hown, -⟩
        exact absurd ((length_filter_owned_eq_iff db uid ids hids hdb).mpr hown) hlen
    · intro db2 hdb2
      exact absurd hdb2 (by simp)

/-- C9 witness: with one account (id 1, user 7) and nothing referencing it,
requesting `[1]` succeeds, and the success condition is reported by the
specification theorem. -/
theorem bulkDeleteAccounts_spec_witness :
    ∃ db2, bulkDeleteAccounts ⟨[⟨1, 7, "b", 0⟩], [], [], []⟩ 7 [1] = .ok db2 := by
  apply ((bulkDeleteAccounts_spec ⟨[⟨1, 7, "b", 0⟩], [], [], []⟩ 7 [1]
    (by decide) (by decide)).1).mpr
  constructor
  · intro accId hmem
    refine ⟨⟨1, 7, "b", 0⟩, by simp, ?_, rfl⟩
    simp only [List.mem_cons, List.not_mem_nil, or_false] at hmem
    simp [hmem]
  · exact ⟨fun e hme => absurd hme (List.not_mem_nil e),
      fun i hmi => absurd hmi (List.not_mem_nil i),
      fun i hmi => absurd hmi (List.not_mem_nil i)⟩

/-! ### getUserIdFromSession

The helper at the top of `apps/web/app/actions/accounts.tsx`.  Session id
strings are modelled as lists of characters; JavaScript `parseInt` (radix 10,
`NaN` as `none`) is modelled by `jsParseInt`: leading whitespace is skipped,
an optional sign is read, and the longest leading run of decimal digits is
parsed, with `none` when that run is empty.
-/

/-- Numeric value of a list of decimal digit characters. -/
def digitsToNat (ds : List Char) : ℕ :=
  ds.foldl (fun n c => 10 * n + (c.toNat - 48)) 0

/-- JavaScript `parseInt(s)` in base 10: skip spaces, read an optional sign,
parse the leading digit run; `none` models `NaN`. -/
def jsParseInt (s : List Char) : Option ℤ :=
  let t := s.dropWhile (fun c => c == ' ')
  match t with
  | '-' :: rest =>
      let ds := rest.takeWhile (fun c => c.isDigit)
      if ds.isEmpty then none else some (-(digitsToNat ds : ℤ))
  | '+' :: rest =>
      let ds := rest.takeWhile (fun c => c.isDigit)
      if ds.isEmpty then none else some ((digitsToNat ds : ℤ))
  | _ =>
      let ds := t.takeWhile (fun c => c.isDigit)
      if ds.isEmpty then none else some ((digitsToNat ds : ℤ))

/-- The `getUserIdFromSession` helper of `apps/web/app/actions/accounts.tsx`:
ids longer than 5 characters are truncated to their last 5 characters
(JavaScript `slice(-5)`) before parsing; shorter ids are parsed whole. -/
def getUserIdFromSession (sessionUserId : List Char) : Option ℤ :=
  if 5 < sessionUserId.length then
    jsParseInt (sessionUserId.drop (sessionUserId.length - 5))
  else
    jsParseInt sessionUserId

/-- Any session id of at least 5 characters is parsed from exactly its last
5 characters. -/
theorem getUserIdFromSession_eq_parse_last5 (s : List Char) (h : 5 ≤ s.length) :
    getUserIdFromSession s = jsParseInt (s.drop (s.length - 5)) := by
  rcases lt_or_eq_of_le h with h5 | h5
  · unfold getUserIdFromSession
    rw [if_pos h5]
  · unfold getUserIdFromSession
    rw [if_neg (by omega), ← h5]
    simp

/-- C10: a session id longer than 5 characters is parsed from only its last
5 characters (shorter ids are parsed whole), and consequently two session
ids (of length at least 5) that agree on their last 5 characters are mapped
to the same numeric user id. -/
theorem getUserIdFromSession_collision (s1 s2 : List Char)
    (h1 : 5 ≤ s1.length) (h2 : 5 ≤ s2.length)
    (hsuffix : s1.drop (s1.length - 5) = s2.drop (s2.length - 5)) :
    (∀ s : List Char, 5 < s.length →
        getUserIdFromSession s = jsParseInt (s.drop (s.length - 5)))
      ∧ (∀ s : List Char, s.length ≤ 5 → getUserIdFromSession s = jsParseInt s)
      ∧ getUserIdFromSession s1 = getUserIdFromSession s2 := by
  refine ⟨?_, ?_, ?_⟩
  · intro s hs
    unfold getUserIdFromSession
    rw [if_pos hs]
  · intro s hs
    unfold getUserIdFromSession
    rw [if_neg (by omega)]
  · rw [getUserIdFromSession_eq_parse_last5 s1 h1,
      getUserIdFromSession_eq_parse_last5 s2 h2, hsuffix]

/-- C10 witness: the 9-character OAuth-style id `108152345` and the distinct
6-character id `x52345` share their last 5 characters and both map to user
id 52345. -/
theorem getUserIdFromSession_collision_witness :
    getUserIdFromSession ['1', '0', '8', '1', '5', '2', '3', '4', '5']
        = getUserIdFromSession ['x', '5', '2', '3', '4', '5']
      ∧ getUserIdFromSession ['1', '0', '8', '1', '5', '2', '3', '4', '5'] = some 52345 := by
  constructor
  · exact (getUserIdFromSession_collision
      ['1', '0', '8', '1', '5', '2', '3', '4', '5'] ['x', '5', '2', '3', '4', '5']
      (by decide) (by decide) (by decide)).2.2
  · decide

end Payme
